import Mathlib

/-!
# Verification of the `StoneMod` binding-model routine

Shallow embedding of the only implemented routine of the repository
(`Week3-Fitting.ipynb`, cell 1): the `StoneMod` multivalent ligand-receptor
binding model from Stone et al. (2001).

The Python source is:

```
np.seterr(over='raise')

def StoneMod(Rtot, Kd, v, Kx, L0):
    v = np.int_(v)
    # Mass balance for receptor species, to identify the amount of free receptor
    diffFunAnon = lambda x: Rtot-x*(1+v*L0*(1/Kd)*(1+Kx*x)**(v-1))
    # Check that there is a solution
    if diffFunAnon(0) * diffFunAnon(Rtot) > 0:
        raise RuntimeError("There is no solution with these parameters. ...")
    Req = brentq(diffFunAnon, 0, Rtot, disp=False)
    vieq = L0*(1/Kd)*Req*(binom(v, np.arange(1, v + 1))) * np.power(Kx*Req, np.arange(v))
    Lbound = np.sum(vieq)
    Rmulti = np.sum(np.multiply(vieq[1:], np.arange(2, v + 1, dtype=np.float)))
    Rbnd = np.sum(np.multiply(vieq, np.arange(1, v + 1, dtype=np.float)))
    return (Lbound, Rbnd, Rmulti)
```

Embedding choices:
* floats are modelled as real numbers (`ℝ`);
* the valency after the `np.int_` coercion is an integer (`ℤ`); the
  exponent `v - 1` in the mass-balance function is an integer power
  (`zpow`), exactly as in Python, where a negative exponent on a float
  base denotes a real power;
* `np.arange(1, v + 1)` and `np.arange(v)` are empty for `v ≤ 0`, so the
  three sums run over `Finset.range v.toNat`;
* `brentq(f, 0, Rtot)` is a bracketing root-finder: it returns a root of
  `f` lying in the bracket `[0, Rtot]`.  Its result is modelled
  relationally by the predicate `isReq` (a root in the bracket), and
  `StoneMod` itself by the relation `StoneMod` on `Except` results:
  `.error` is the `RuntimeError` raised by the sign check, `.ok` is the
  returned triple `(Lbound, Rbnd, Rmulti)`.
-/

namespace StoneModel

open Finset

/-- The anonymous mass-balance function `diffFunAnon` of the source:
`f(x) = Rtot - x*(1 + v*L0*(1/Kd)*(1 + Kx*x)^(v-1))`. -/
noncomputable def diffFun (Rtot Kd : ℝ) (v : ℤ) (Kx L0 : ℝ) (x : ℝ) : ℝ :=
  Rtot - x * (1 + (v : ℝ) * L0 * (1 / Kd) * (1 + Kx * x) ^ (v - 1))

/-- The guard of the `raise RuntimeError` branch:
`diffFunAnon(0) * diffFunAnon(Rtot) > 0`. -/
def noSolution (Rtot Kd : ℝ) (v : ℤ) (Kx L0 : ℝ) : Prop :=
  diffFun Rtot Kd v Kx L0 0 * diffFun Rtot Kd v Kx L0 Rtot > 0

/-- The contract of `brentq(diffFunAnon, 0, Rtot)`: a root of the
mass-balance function lying in the bracket `[0, Rtot]`. -/
def isReq (Rtot Kd : ℝ) (v : ℤ) (Kx L0 Req : ℝ) : Prop :=
  0 ≤ Req ∧ Req ≤ Rtot ∧ diffFun Rtot Kd v Kx L0 Req = 0

/-- Element `j` (0-based, as the numpy arrays are) of the vector
`vieq = L0*(1/Kd)*Req * binom(v, arange(1, v+1)) * power(Kx*Req, arange(v))`;
entry `j` holds species `i = j + 1`. -/
noncomputable def vieq (Kd : ℝ) (v : ℤ) (Kx L0 Req : ℝ) (j : ℕ) : ℝ :=
  L0 * (1 / Kd) * Req * (Nat.choose v.toNat (j + 1) : ℝ) * (Kx * Req) ^ j

/-- `Lbound = np.sum(vieq)`. -/
noncomputable def Lbound (Kd : ℝ) (v : ℤ) (Kx L0 Req : ℝ) : ℝ :=
  ∑ j ∈ range v.toNat, vieq Kd v Kx L0 Req j

/-- `Rbnd = np.sum(np.multiply(vieq, np.arange(1, v + 1)))`. -/
noncomputable def Rbnd (Kd : ℝ) (v : ℤ) (Kx L0 Req : ℝ) : ℝ :=
  ∑ j ∈ range v.toNat, vieq Kd v Kx L0 Req j * ((j : ℝ) + 1)

/-- `Rmulti = np.sum(np.multiply(vieq[1:], np.arange(2, v + 1)))`. -/
noncomputable def Rmulti (Kd : ℝ) (v : ℤ) (Kx L0 Req : ℝ) : ℝ :=
  ∑ j ∈ range (v.toNat - 1), vieq Kd v Kx L0 Req (j + 1) * ((j : ℝ) + 2)

/-- The triple returned by a successful call, as a function of the root
`Req` delivered by the root-finder. -/
noncomputable def StoneModOut (Kd : ℝ) (v : ℤ) (Kx L0 Req : ℝ) : ℝ × ℝ × ℝ :=
  (Lbound Kd v Kx L0 Req, Rbnd Kd v Kx L0 Req, Rmulti Kd v Kx L0 Req)

/-- The behaviour of `StoneMod Rtot Kd v Kx L0` as a relation on results:
`.error ()` is the `RuntimeError` (raised exactly when the sign check
fires, before the root-finder runs), `.ok t` is a normal return, which
happens when the check passes and `brentq` delivers a root `Req` in
`[0, Rtot]`; the triple is then computed from `Req`. -/
def StoneMod (Rtot Kd : ℝ) (v : ℤ) (Kx L0 : ℝ) :
    Except Unit (ℝ × ℝ × ℝ) → Prop
  | .error _ => noSolution Rtot Kd v Kx L0
  | .ok t => ¬ noSolution Rtot Kd v Kx L0 ∧
      ∃ r, isReq Rtot Kd v Kx L0 r ∧ t = StoneModOut Kd v Kx L0 r

/-! ### Arithmetic helper lemmas -/

lemma toNat_cast_real (v : ℤ) (hv : 1 ≤ v) : ((v.toNat : ℝ)) = (v : ℝ) := by
  have h0 : (0 : ℤ) ≤ v := by omega
  rw [← Int.cast_natCast, Int.toNat_of_nonneg h0]

lemma zpow_pred_eq_pow (x : ℝ) (v : ℤ) (hv : 1 ≤ v) :
    x ^ (v - 1) = x ^ (v.toNat - 1) := by
  have h : v - 1 = ((v.toNat - 1 : ℕ) : ℤ) := by omega
  rw [h, zpow_natCast]

/-- The binomial theorem in the form used below. -/
lemma binomial_sum (m : ℕ) (t : ℝ) :
    ∑ j ∈ range (m + 1), (m.choose j : ℝ) * t ^ j = (1 + t) ^ m := by
  rw [add_comm (1 : ℝ) t, add_pow]
  refine Finset.sum_congr rfl fun j _ => ?_
  ring

/-- `∑_{i=1}^{n} C(n,i) t^(i-1) = ∑_{k=0}^{n-1} (1+t)^k`, written with the
0-based index `j = i - 1` on the left. -/
lemma sum_choose_pow_eq_geom (n : ℕ) (t : ℝ) :
    ∑ j ∈ range n, (n.choose (j + 1) : ℝ) * t ^ j = ∑ k ∈ range n, (1 + t) ^ k := by
  induction n with
  | zero => simp
  | succ m ih =>
    calc ∑ j ∈ range (m + 1), ((m + 1).choose (j + 1) : ℝ) * t ^ j
        = ∑ j ∈ range (m + 1),
            ((m.choose j : ℝ) * t ^ j + (m.choose (j + 1) : ℝ) * t ^ j) := by
          refine Finset.sum_congr rfl fun j _ => ?_
          rw [Nat.choose_succ_succ]
          push_cast
          ring
      _ = (∑ j ∈ range (m + 1), (m.choose j : ℝ) * t ^ j)
            + ∑ j ∈ range (m + 1), (m.choose (j + 1) : ℝ) * t ^ j :=
          Finset.sum_add_distrib
      _ = (1 + t) ^ m + ∑ j ∈ range m, (m.choose (j + 1) : ℝ) * t ^ j := by
          rw [binomial_sum, Finset.sum_range_succ, Nat.choose_succ_self]
          norm_num
      _ = (1 + t) ^ m + ∑ k ∈ range m, (1 + t) ^ k := by rw [ih]
      _ = ∑ k ∈ range (m + 1), (1 + t) ^ k := by rw [Finset.sum_range_succ]; ring

/-- `∑_{i=1}^{n} i C(n,i) t^(i-1) = n (1+t)^(n-1)`, with the 0-based
index `j = i - 1` on the left. -/
lemma sum_mul_choose_pow_eq (n : ℕ) (hn : 1 ≤ n) (t : ℝ) :
    ∑ j ∈ range n, ((j : ℝ) + 1) * (n.choose (j + 1) : ℝ) * t ^ j
      = (n : ℝ) * (1 + t) ^ (n - 1) := by
  obtain ⟨m, rfl⟩ : ∃ m, n = m + 1 := ⟨n - 1, by omega⟩
  calc ∑ j ∈ range (m + 1), ((j : ℝ) + 1) * ((m + 1).choose (j + 1) : ℝ) * t ^ j
      = ∑ j ∈ range (m + 1), ((m : ℝ) + 1) * ((m.choose j : ℝ) * t ^ j) := by
        refine Finset.sum_congr rfl fun j _ => ?_
        have h := Nat.succ_mul_choose_eq m j
        have h' : ((m : ℝ) + 1) * (m.choose j : ℝ)
            = ((m + 1).choose (j + 1) : ℝ) * ((j : ℝ) + 1) := by
          exact_mod_cast congrArg (Nat.cast (R := ℝ)) h
        calc ((j : ℝ) + 1) * ((m + 1).choose (j + 1) : ℝ) * t ^ j
            = ((m + 1).choose (j + 1) : ℝ) * ((j : ℝ) + 1) * t ^ j := by ring
          _ = ((m : ℝ) + 1) * (m.choose j : ℝ) * t ^ j := by rw [← h']
          _ = ((m : ℝ) + 1) * ((m.choose j : ℝ) * t ^ j) := by ring
    _ = ((m : ℝ) + 1) * ∑ j ∈ range (m + 1), (m.choose j : ℝ) * t ^ j :=
        (Finset.mul_sum _ _ _).symm
    _ = ((m + 1 : ℕ) : ℝ) * (1 + t) ^ (m + 1 - 1) := by
        rw [binomial_sum]
        push_cast
        ring

/-! ### Closed forms for the three sums, and the mass balance -/

lemma Lbound_eq_geom (Kd : ℝ) (v : ℤ) (Kx L0 Req : ℝ) :
    Lbound Kd v Kx L0 Req
      = L0 * (1 / Kd) * Req * ∑ k ∈ range v.toNat, (1 + Kx * Req) ^ k := by
  unfold Lbound vieq
  calc ∑ j ∈ range v.toNat,
        L0 * (1 / Kd) * Req * (Nat.choose v.toNat (j + 1) : ℝ) * (Kx * Req) ^ j
      = L0 * (1 / Kd) * Req
          * ∑ j ∈ range v.toNat, (Nat.choose v.toNat (j + 1) : ℝ) * (Kx * Req) ^ j := by
        rw [Finset.mul_sum]
        refine Finset.sum_congr rfl fun j _ => ?_
        ring
    _ = L0 * (1 / Kd) * Req * ∑ k ∈ range v.toNat, (1 + Kx * Req) ^ k := by
        rw [sum_choose_pow_eq_geom]

lemma Rbnd_eq_closed (Kd : ℝ) (v : ℤ) (hv : 1 ≤ v) (Kx L0 Req : ℝ) :
    Rbnd Kd v Kx L0 Req
      = L0 * (1 / Kd) * Req * ((v : ℝ) * (1 + Kx * Req) ^ (v.toNat - 1)) := by
  have hn : 1 ≤ v.toNat := by omega
  unfold Rbnd vieq
  rw [← toNat_cast_real v hv, ← sum_mul_choose_pow_eq v.toNat hn (Kx * Req),
    Finset.mul_sum]
  refine Finset.sum_congr rfl fun j _ => ?_
  ring

/-- At a root of the mass-balance function, the receptor consumed by binding
equals `Rtot - Req`. -/
lemma mass_balance (Rtot Kd : ℝ) (v : ℤ) (hv : 1 ≤ v) (Kx L0 Req : ℝ)
    (hroot : diffFun Rtot Kd v Kx L0 Req = 0) :
    L0 * (1 / Kd) * Req * ((v : ℝ) * (1 + Kx * Req) ^ (v.toNat - 1))
      = Rtot - Req := by
  unfold diffFun at hroot
  rw [zpow_pred_eq_pow (1 + Kx * Req) v hv] at hroot
  linear_combination -hroot

/-- `Rbnd = Rtot - Req` at any root of the mass-balance function. -/
lemma Rbnd_eq_sub (Rtot Kd : ℝ) (v : ℤ) (hv : 1 ≤ v) (Kx L0 Req : ℝ)
    (hroot : diffFun Rtot Kd v Kx L0 Req = 0) :
    Rbnd Kd v Kx L0 Req = Rtot - Req := by
  rw [Rbnd_eq_closed Kd v hv, mass_balance Rtot Kd v hv Kx L0 Req hroot]

/-- `Rbnd` splits into the singly-bound term (`vieq 0`) plus `Rmulti`. -/
lemma Rbnd_split (Kd : ℝ) (v : ℤ) (hv : 1 ≤ v) (Kx L0 Req : ℝ) :
    Rbnd Kd v Kx L0 Req
      = vieq Kd v Kx L0 Req 0 + Rmulti Kd v Kx L0 Req := by
  have hn : v.toNat = (v.toNat - 1) + 1 := by omega
  unfold Rbnd Rmulti
  rw [hn, Finset.sum_range_succ']
  have h0 : vieq Kd v Kx L0 Req 0 * ((0 : ℕ) + 1 : ℝ) = vieq Kd v Kx L0 Req 0 := by
    norm_num
  rw [h0, add_comm]
  congr 1
  refine Finset.sum_congr rfl fun j _ => ?_
  push_cast
  ring

lemma vieq_nonneg (Kd : ℝ) (v : ℤ) (Kx L0 Req : ℝ) (j : ℕ)
    (hKd : 0 < Kd) (hKx : 0 ≤ Kx) (hL0 : 0 ≤ L0) (hReq : 0 ≤ Req) :
    0 ≤ vieq Kd v Kx L0 Req j := by
  unfold vieq
  have h1 : (0 : ℝ) ≤ 1 / Kd := by positivity
  have h2 : (0 : ℝ) ≤ (Nat.choose v.toNat (j + 1) : ℝ) := Nat.cast_nonneg _
  have h3 : (0 : ℝ) ≤ (Kx * Req) ^ j := pow_nonneg (mul_nonneg hKx hReq) j
  exact mul_nonneg (mul_nonneg (mul_nonneg (mul_nonneg hL0 h1) hReq) h2) h3

/-! ### Monotonicity machinery -/

/-- The receptor-consumption side of the mass balance,
`x ↦ x (1 + c (1 + Kx x)^m)`, is strictly increasing on `[0, ∞)` when
`c ≥ 0` and `Kx ≥ 0`. -/
lemma consumption_strict_mono (c Kx : ℝ) (m : ℕ) (hc : 0 ≤ c) (hKx : 0 ≤ Kx)
    {x y : ℝ} (hx : 0 ≤ x) (hxy : x < y) :
    x * (1 + c * (1 + Kx * x) ^ m) < y * (1 + c * (1 + Kx * y) ^ m) := by
  have hy : 0 ≤ y := le_trans hx hxy.le
  have hbx : (0 : ℝ) ≤ 1 + Kx * x := by
    have := mul_nonneg hKx hx
    linarith
  have hby : (0 : ℝ) ≤ 1 + Kx * y := by
    have := mul_nonneg hKx hy
    linarith
  have hbb : 1 + Kx * x ≤ 1 + Kx * y := by
    have := mul_le_mul_of_nonneg_left hxy.le hKx
    linarith
  have hpow : (1 + Kx * x) ^ m ≤ (1 + Kx * y) ^ m := pow_le_pow_left₀ hbx hbb m
  have hfac : 1 + c * (1 + Kx * x) ^ m ≤ 1 + c * (1 + Kx * y) ^ m := by
    have := mul_le_mul_of_nonneg_left hpow hc
    linarith
  have hfpos : 0 < 1 + c * (1 + Kx * y) ^ m := by
    have := mul_nonneg hc (pow_nonneg hby m)
    linarith
  calc x * (1 + c * (1 + Kx * x) ^ m)
      ≤ x * (1 + c * (1 + Kx * y) ^ m) := mul_le_mul_of_nonneg_left hfac hx
    _ < y * (1 + c * (1 + Kx * y) ^ m) := mul_lt_mul_of_pos_right hxy hfpos

/-- The root of the mass-balance function is antitone in the ligand
concentration: a larger `L0` gives a smaller (or equal) root. -/
lemma req_antitone (Rtot Kd : ℝ) (v : ℤ) (Kx L0 L0' R R' : ℝ)
    (hKd : 0 < Kd) (hv : 1 ≤ v) (hKx : 0 ≤ Kx) (hL0 : 0 ≤ L0) (hLL : L0 ≤ L0')
    (h1 : isReq Rtot Kd v Kx L0 R) (h2 : isReq Rtot Kd v Kx L0' R') :
    R' ≤ R := by
  by_contra hcon
  push_neg at hcon
  obtain ⟨hR0, _, hroot⟩ := h1
  obtain ⟨hR0', _, hroot'⟩ := h2
  have hvr : (1 : ℝ) ≤ (v : ℝ) := by exact_mod_cast hv
  have hKdi : (0 : ℝ) < 1 / Kd := by positivity
  have hc : 0 ≤ (v : ℝ) * L0 * (1 / Kd) :=
    mul_nonneg (mul_nonneg (by linarith) hL0) hKdi.le
  have hcc : (v : ℝ) * L0 * (1 / Kd) ≤ (v : ℝ) * L0' * (1 / Kd) := by
    have h := mul_le_mul_of_nonneg_left hLL (by linarith : (0 : ℝ) ≤ (v : ℝ))
    exact mul_le_mul_of_nonneg_right h hKdi.le
  unfold diffFun at hroot hroot'
  rw [zpow_pred_eq_pow (1 + Kx * R) v hv] at hroot
  rw [zpow_pred_eq_pow (1 + Kx * R') v hv] at hroot'
  have key := consumption_strict_mono ((v : ℝ) * L0 * (1 / Kd)) Kx
    (v.toNat - 1) hc hKx hR0 hcon
  have hpw : (0 : ℝ) ≤ (1 + Kx * R') ^ (v.toNat - 1) := by
    have := mul_nonneg hKx hR0'
    exact pow_nonneg (by linarith) _
  have hcp := mul_le_mul_of_nonneg_right hcc hpw
  have mono_c : R' * (1 + (v : ℝ) * L0 * (1 / Kd) * (1 + Kx * R') ^ (v.toNat - 1))
      ≤ R' * (1 + (v : ℝ) * L0' * (1 / Kd) * (1 + Kx * R') ^ (v.toNat - 1)) :=
    mul_le_mul_of_nonneg_left (by linarith) hR0'
  linarith

/-- Crossed powers: for `0 ≤ a ≤ b` and `k < n`,
`b^k a^(n-1) ≤ a^k b^(n-1)`. -/
lemma pow_cross_le (a b : ℝ) (ha : 0 ≤ a) (hab : a ≤ b) (n : ℕ) {k : ℕ}
    (hk : k < n) : b ^ k * a ^ (n - 1) ≤ a ^ k * b ^ (n - 1) := by
  have hb : 0 ≤ b := le_trans ha hab
  have hsplit : n - 1 = k + (n - 1 - k) := by omega
  rw [hsplit, pow_add, pow_add]
  have hpow : a ^ (n - 1 - k) ≤ b ^ (n - 1 - k) := pow_le_pow_left₀ ha hab _
  calc b ^ k * (a ^ k * a ^ (n - 1 - k))
      = a ^ k * b ^ k * a ^ (n - 1 - k) := by ring
    _ ≤ a ^ k * b ^ k * b ^ (n - 1 - k) :=
        mul_le_mul_of_nonneg_left hpow
          (mul_nonneg (pow_nonneg ha k) (pow_nonneg hb k))
    _ = a ^ k * (b ^ k * b ^ (n - 1 - k)) := by ring

/-- Crossed geometric sums: for `0 ≤ a ≤ b`,
`(∑ b^k) a^(n-1) ≤ (∑ a^k) b^(n-1)`. -/
lemma geom_cross_le (a b : ℝ) (ha : 0 ≤ a) (hab : a ≤ b) (n : ℕ) :
    (∑ k ∈ range n, b ^ k) * a ^ (n - 1)
      ≤ (∑ k ∈ range n, a ^ k) * b ^ (n - 1) := by
  rw [Finset.sum_mul, Finset.sum_mul]
  exact Finset.sum_le_sum fun k hk =>
    pow_cross_le a b ha hab n (Finset.mem_range.mp hk)

/-- `Lbound` is monotone in the ligand concentration `L0`, along the roots
of the respective mass-balance functions. -/
lemma Lbound_mono (Rtot Kd : ℝ) (v : ℤ) (Kx L0 L0' R R' : ℝ)
    (hKd : 0 < Kd) (hv : 1 ≤ v) (hKx : 0 ≤ Kx) (hL0 : 0 ≤ L0) (hLL : L0 ≤ L0')
    (h1 : isReq Rtot Kd v Kx L0 R) (h2 : isReq Rtot Kd v Kx L0' R') :
    Lbound Kd v Kx L0 R ≤ Lbound Kd v Kx L0' R' := by
  have hRR : R' ≤ R :=
    req_antitone Rtot Kd v Kx L0 L0' R R' hKd hv hKx hL0 hLL h1 h2
  obtain ⟨hR0, hRt, hroot⟩ := h1
  obtain ⟨hR0', hRt', hroot'⟩ := h2
  have ha0 : (0 : ℝ) ≤ 1 + Kx * R' := by
    have := mul_nonneg hKx hR0'
    linarith
  have hb1 : (1 : ℝ) ≤ 1 + Kx * R := by
    have := mul_nonneg hKx hR0
    linarith
  have hab : 1 + Kx * R' ≤ 1 + Kx * R := by
    have := mul_le_mul_of_nonneg_left hRR hKx
    linarith
  have hvpos : (0 : ℝ) < (v : ℝ) := by exact_mod_cast (by omega : (0 : ℤ) < v)
  have hbpos : 0 < (1 + Kx * R) ^ (v.toNat - 1) := pow_pos (by linarith) _
  have hapos : 0 < (1 + Kx * R') ^ (v.toNat - 1) := by
    have h1a : (0 : ℝ) < 1 + Kx * R' := by
      have := mul_nonneg hKx hR0'
      linarith
    exact pow_pos h1a _
  have e1 : Lbound Kd v Kx L0 R * ((v : ℝ) * (1 + Kx * R) ^ (v.toNat - 1))
      = (Rtot - R) * ∑ k ∈ range v.toNat, (1 + Kx * R) ^ k := by
    rw [Lbound_eq_geom, ← mass_balance Rtot Kd v hv Kx L0 R hroot]
    ring
  have e2 : Lbound Kd v Kx L0' R' * ((v : ℝ) * (1 + Kx * R') ^ (v.toNat - 1))
      = (Rtot - R') * ∑ k ∈ range v.toNat, (1 + Kx * R') ^ k := by
    rw [Lbound_eq_geom, ← mass_balance Rtot Kd v hv Kx L0' R' hroot']
    ring
  have hS : (∑ k ∈ range v.toNat, (1 + Kx * R) ^ k) * (1 + Kx * R') ^ (v.toNat - 1)
      ≤ (∑ k ∈ range v.toNat, (1 + Kx * R') ^ k) * (1 + Kx * R) ^ (v.toNat - 1) :=
    geom_cross_le (1 + Kx * R') (1 + Kx * R) ha0 hab v.toNat
  have hS0 : 0 ≤ (∑ k ∈ range v.toNat, (1 + Kx * R) ^ k)
      * (1 + Kx * R') ^ (v.toNat - 1) :=
    mul_nonneg (Finset.sum_nonneg fun k _ => pow_nonneg (by linarith) k) hapos.le
  have hS1 : 0 ≤ (∑ k ∈ range v.toNat, (1 + Kx * R') ^ k)
      * (1 + Kx * R) ^ (v.toNat - 1) :=
    mul_nonneg (Finset.sum_nonneg fun k _ => pow_nonneg ha0 k) hbpos.le
  have hmid : (Rtot - R) * ((∑ k ∈ range v.toNat, (1 + Kx * R) ^ k)
        * (1 + Kx * R') ^ (v.toNat - 1))
      ≤ (Rtot - R') * ((∑ k ∈ range v.toNat, (1 + Kx * R') ^ k)
        * (1 + Kx * R) ^ (v.toNat - 1)) :=
    mul_le_mul (by linarith) hS hS0 (by linarith)
  have key : Lbound Kd v Kx L0 R
        * ((v : ℝ) * (1 + Kx * R) ^ (v.toNat - 1) * (1 + Kx * R') ^ (v.toNat - 1))
      ≤ Lbound Kd v Kx L0' R'
        * ((v : ℝ) * (1 + Kx * R) ^ (v.toNat - 1) * (1 + Kx * R') ^ (v.toNat - 1)) := by
    have q1 : Lbound Kd v Kx L0 R
          * ((v : ℝ) * (1 + Kx * R) ^ (v.toNat - 1) * (1 + Kx * R') ^ (v.toNat - 1))
        = (Rtot - R) * ((∑ k ∈ range v.toNat, (1 + Kx * R) ^ k)
          * (1 + Kx * R') ^ (v.toNat - 1)) := by
      calc Lbound Kd v Kx L0 R
            * ((v : ℝ) * (1 + Kx * R) ^ (v.toNat - 1) * (1 + Kx * R') ^ (v.toNat - 1))
          = Lbound Kd v Kx L0 R * ((v : ℝ) * (1 + Kx * R) ^ (v.toNat - 1))
            * (1 + Kx * R') ^ (v.toNat - 1) := by ring
        _ = (Rtot - R) * ((∑ k ∈ range v.toNat, (1 + Kx * R) ^ k)
            * (1 + Kx * R') ^ (v.toNat - 1)) := by rw [e1]; ring
    have q2 : Lbound Kd v Kx L0' R'
          * ((v : ℝ) * (1 + Kx * R) ^ (v.toNat - 1) * (1 + Kx * R') ^ (v.toNat - 1))
        = (Rtot - R') * ((∑ k ∈ range v.toNat, (1 + Kx * R') ^ k)
          * (1 + Kx * R) ^ (v.toNat - 1)) := by
      calc Lbound Kd v Kx L0' R'
            * ((v : ℝ) * (1 + Kx * R) ^ (v.toNat - 1) * (1 + Kx * R') ^ (v.toNat - 1))
          = Lbound Kd v Kx L0' R' * ((v : ℝ) * (1 + Kx * R') ^ (v.toNat - 1))
            * (1 + Kx * R) ^ (v.toNat - 1) := by ring
        _ = (Rtot - R') * ((∑ k ∈ range v.toNat, (1 + Kx * R') ^ k)
            * (1 + Kx * R) ^ (v.toNat - 1)) := by rw [e2]; ring
    rw [q1, q2]
    exact hmid
  have hPpos : 0 < (v : ℝ) * (1 + Kx * R) ^ (v.toNat - 1)
      * (1 + Kx * R') ^ (v.toNat - 1) :=
    mul_pos (mul_pos hvpos hbpos) hapos
  exact le_of_mul_le_mul_right key hPpos

/-! ### The specification's formulas, written as the spec states them
(1-indexed species `i`, sums over `i = 1..v` resp. `i = 2..v`) -/

/-- Species concentration as the spec writes it:
`vieq[i] = L0 * (1/Kd) * Req * C(v, i) * (Kx*Req)^(i-1)`. -/
noncomputable def vieqSpec (Kd : ℝ) (n : ℕ) (Kx L0 Req : ℝ) (i : ℕ) : ℝ :=
  L0 * (1 / Kd) * Req * (Nat.choose n i : ℝ) * (Kx * Req) ^ (i - 1)

/-- Spec: `Lbound = Σ vieq[i] for i = 1..v`. -/
noncomputable def LboundSpec (Kd : ℝ) (n : ℕ) (Kx L0 Req : ℝ) : ℝ :=
  ∑ i ∈ Finset.Icc 1 n, vieqSpec Kd n Kx L0 Req i

/-- Spec: `Rbnd = Σ i * vieq[i] for i = 1..v`. -/
noncomputable def RbndSpec (Kd : ℝ) (n : ℕ) (Kx L0 Req : ℝ) : ℝ :=
  ∑ i ∈ Finset.Icc 1 n, (i : ℝ) * vieqSpec Kd n Kx L0 Req i

/-- Spec: `Rmulti = Σ i * vieq[i] for i = 2..v` (the `i = 1` term omitted). -/
noncomputable def RmultiSpec (Kd : ℝ) (n : ℕ) (Kx L0 Req : ℝ) : ℝ :=
  ∑ i ∈ Finset.Icc 2 n, (i : ℝ) * vieqSpec Kd n Kx L0 Req i

lemma LboundSpec_eq (Kd : ℝ) (v : ℤ) (Kx L0 Req : ℝ) :
    LboundSpec Kd v.toNat Kx L0 Req = Lbound Kd v Kx L0 Req := by
  unfold LboundSpec Lbound
  rw [← Nat.Ico_succ_right, Finset.sum_Ico_eq_sum_range]
  have hr : v.toNat.succ - 1 = v.toNat := by omega
  rw [hr]
  refine Finset.sum_congr rfl fun j _ => ?_
  unfold vieqSpec vieq
  have h1 : 1 + j - 1 = j := by omega
  have h2 : 1 + j = j + 1 := by omega
  rw [h1, h2]

lemma RbndSpec_eq (Kd : ℝ) (v : ℤ) (Kx L0 Req : ℝ) :
    RbndSpec Kd v.toNat Kx L0 Req = Rbnd Kd v Kx L0 Req := by
  unfold RbndSpec Rbnd
  rw [← Nat.Ico_succ_right, Finset.sum_Ico_eq_sum_range]
  have hr : v.toNat.succ - 1 = v.toNat := by omega
  rw [hr]
  refine Finset.sum_congr rfl fun j _ => ?_
  unfold vieqSpec vieq
  have h1 : 1 + j - 1 = j := by omega
  have h2 : 1 + j = j + 1 := by omega
  rw [h1, h2]
  push_cast
  ring

lemma RmultiSpec_eq (Kd : ℝ) (v : ℤ) (Kx L0 Req : ℝ) :
    RmultiSpec Kd v.toNat Kx L0 Req = Rmulti Kd v Kx L0 Req := by
  unfold RmultiSpec Rmulti
  rw [← Nat.Ico_succ_right, Finset.sum_Ico_eq_sum_range]
  have hr : v.toNat.succ - 2 = v.toNat - 1 := by omega
  rw [hr]
  refine Finset.sum_congr rfl fun j _ => ?_
  unfold vieqSpec vieq
  have h1 : 2 + j - 1 = j + 1 := by omega
  have h2 : 2 + j = (j + 1) + 1 := by omega
  rw [h1, h2]
  push_cast
  ring

/-! ### The claims -/

/-- C1: on every input on which `StoneMod` does not fail, with `Req` the
root found in step 1, the returned triple is exactly
`(Lbound, Rbnd, Rmulti)` as the spec's series formulas state them:
`vieq[i] = L0 (1/Kd) Req C(v,i) (Kx Req)^(i-1)`, `Lbound = Σ_{i=1..v} vieq[i]`,
`Rbnd = Σ_{i=1..v} i vieq[i]`, `Rmulti = Σ_{i=2..v} i vieq[i]`, in that order. -/
theorem C1_output_is_spec_series (Rtot Kd : ℝ) (v : ℤ) (Kx L0 : ℝ)
    (t : ℝ × ℝ × ℝ) (hv : 1 ≤ v) (h : StoneMod Rtot Kd v Kx L0 (.ok t)) :
    ∃ Req, isReq Rtot Kd v Kx L0 Req ∧
      t = (LboundSpec Kd v.toNat Kx L0 Req, RbndSpec Kd v.toNat Kx L0 Req,
           RmultiSpec Kd v.toNat Kx L0 Req) := by
  obtain ⟨-, Req, hReq, rfl⟩ := h
  refine ⟨Req, hReq, ?_⟩
  unfold StoneModOut
  rw [LboundSpec_eq, RbndSpec_eq, RmultiSpec_eq]

/-- C2: a call fails (with the `RuntimeError`) exactly when
`f(0) * f(Rtot) > 0`; the failure carries no root (it is decided before
root-finding), and on success the root-finder was invoked on the bracket
`[0, Rtot]` and produced a root there, from which the output is computed. -/
theorem C2_fail_iff_sign_check (Rtot Kd : ℝ) (v : ℤ) (Kx L0 : ℝ)
    (r : Except Unit (ℝ × ℝ × ℝ)) (h : StoneMod Rtot Kd v Kx L0 r) :
    ((∃ u, r = .error u) ↔ noSolution Rtot Kd v Kx L0) ∧
      ∀ t, r = .ok t → ∃ Req, 0 ≤ Req ∧ Req ≤ Rtot ∧
        diffFun Rtot Kd v Kx L0 Req = 0 ∧ t = StoneModOut Kd v Kx L0 Req := by
  cases r with
  | error u =>
      refine ⟨⟨fun _ => h, fun _ => ⟨u, rfl⟩⟩, fun t ht => Except.noConfusion ht⟩
  | ok t =>
      obtain ⟨hns, Req, ⟨h0, h1, h2⟩, rfl⟩ := h
      refine ⟨⟨?_, fun hn => absurd hn hns⟩, ?_⟩
      · rintro ⟨u, hu⟩
        exact Except.noConfusion hu
      · rintro t' ht'
        injection ht' with ht''
        exact ⟨Req, h0, h1, h2, ht''.symm⟩

/-- C5: for valency `v = 1` every root of the mass-balance function in the
bracket equals the closed form `Rtot * Kd / (Kd + L0)` exactly (so in
particular within any stated tolerance). -/
theorem C5_closed_form_valency_one (Rtot Kd Kx L0 Req : ℝ)
    (hKd : 0 < Kd) (hL0 : 0 ≤ L0) (hReq : isReq Rtot Kd 1 Kx L0 Req) :
    Req = Rtot * Kd / (Kd + L0) := by
  obtain ⟨-, -, hroot⟩ := hReq
  unfold diffFun at hroot
  rw [show (1 : ℤ) - 1 = 0 from rfl, zpow_zero] at hroot
  have hKL : Kd + L0 ≠ 0 := ne_of_gt (by linarith)
  rw [eq_div_iff hKL]
  have hKd0 : Kd ≠ 0 := ne_of_gt hKd
  field_simp at hroot
  linarith [hroot]

/-- C6: for valency `v = 1` the returned `Rmulti` is exactly `0` and the
returned `Rbnd` equals the returned `Lbound`. -/
theorem C6_valency_one_degeneracy (Kd Kx L0 Req : ℝ) :
    Rmulti Kd 1 Kx L0 Req = 0 ∧
      Rbnd Kd 1 Kx L0 Req = Lbound Kd 1 Kx L0 Req := by
  constructor
  · unfold Rmulti
    rw [show ((1 : ℤ)).toNat = 1 from rfl]
    simp
  · unfold Rbnd Lbound
    rw [show ((1 : ℤ)).toNat = 1 from rfl]
    simp

/-- With zero ligand the mass-balance function degenerates to `Rtot - x`. -/
lemma diffFun_zero_ligand (Rtot Kd : ℝ) (v : ℤ) (Kx : ℝ) (x : ℝ) :
    diffFun Rtot Kd v Kx 0 x = Rtot - x := by
  unfold diffFun
  ring

/-- With zero ligand every output is zero, whatever the root. -/
lemma StoneModOut_zero_ligand (Kd : ℝ) (v : ℤ) (Kx Req : ℝ) :
    StoneModOut Kd v Kx 0 Req = (0, 0, 0) := by
  unfold StoneModOut Lbound Rbnd Rmulti vieq
  simp

/-- C7: with `L0 = 0`, `StoneMod` does not fail and the returned triple is
`(0, 0, 0)`: the sign check passes (with root `Req = Rtot`), and every
possible result of the call is the zero triple. -/
theorem C7_zero_ligand (Rtot Kd : ℝ) (v : ℤ) (Kx : ℝ) (hRtot : 0 < Rtot) :
    StoneMod Rtot Kd v Kx 0 (.ok (0, 0, 0)) ∧
      ∀ r, StoneMod Rtot Kd v Kx 0 r → r = .ok (0, 0, 0) := by
  have hns : ¬ noSolution Rtot Kd v Kx 0 := by
    unfold noSolution
    rw [diffFun_zero_ligand, diffFun_zero_ligand]
    simp
  constructor
  · exact ⟨hns, Rtot, ⟨hRtot.le, le_refl Rtot, by rw [diffFun_zero_ligand]; ring⟩,
      (StoneModOut_zero_ligand Kd v Kx Rtot).symm⟩
  · intro r hr
    cases r with
    | error u => exact absurd hr hns
    | ok t =>
        obtain ⟨-, Req, -, rfl⟩ := hr
        rw [StoneModOut_zero_ligand]

/-- C3: on every valid input on which `StoneMod` succeeds, the root
satisfies `0 ≤ Req ≤ Rtot`, and the outputs satisfy
`Rmulti ≤ Rbnd ≤ Rtot`. -/
theorem C3_invariants (Rtot Kd : ℝ) (v : ℤ) (Kx L0 Req : ℝ)
    (hRtot : 0 < Rtot) (hKd : 0 < Kd) (hv : 1 ≤ v) (hKx : 0 ≤ Kx) (hL0 : 0 ≤ L0)
    (hns : ¬ noSolution Rtot Kd v Kx L0) (hReq : isReq Rtot Kd v Kx L0 Req) :
    (0 ≤ Req ∧ Req ≤ Rtot) ∧
      Rmulti Kd v Kx L0 Req ≤ Rbnd Kd v Kx L0 Req ∧
        Rbnd Kd v Kx L0 Req ≤ Rtot := by
  obtain ⟨h0, h1, h2⟩ := hReq
  refine ⟨⟨h0, h1⟩, ?_, ?_⟩
  · rw [Rbnd_split Kd v hv]
    have := vieq_nonneg Kd v Kx L0 Req 0 hKd hKx hL0 h0
    linarith
  · rw [Rbnd_eq_sub Rtot Kd v hv Kx L0 Req h2]
    linarith

/-- C4 (amended): holding `Rtot, Kd, v, Kx` fixed in the valid domain,
increasing `L0` never decreases `Lbound` or `Rbnd` (the claim's third
output, `Rmulti`, is **not** monotone: see the counterexample). -/
theorem C4_Lbound_Rbnd_monotone (Rtot Kd : ℝ) (v : ℤ) (Kx L0 L0' R R' : ℝ)
    (hRtot : 0 < Rtot) (hKd : 0 < Kd) (hv : 1 ≤ v) (hKx : 0 ≤ Kx)
    (hL0 : 0 ≤ L0) (hLL : L0 ≤ L0')
    (h1 : isReq Rtot Kd v Kx L0 R) (h2 : isReq Rtot Kd v Kx L0' R') :
    Lbound Kd v Kx L0 R ≤ Lbound Kd v Kx L0' R' ∧
      Rbnd Kd v Kx L0 R ≤ Rbnd Kd v Kx L0' R' := by
  constructor
  · exact Lbound_mono Rtot Kd v Kx L0 L0' R R' hKd hv hKx hL0 hLL h1 h2
  · have hRR : R' ≤ R :=
      req_antitone Rtot Kd v Kx L0 L0' R R' hKd hv hKx hL0 hLL h1 h2
    rw [Rbnd_eq_sub Rtot Kd v hv Kx L0 R h1.2.2,
      Rbnd_eq_sub Rtot Kd v hv Kx L0' R' h2.2.2]
    linarith

/-! A concrete run used by the C4 counterexample and the C4 witness:
`Rtot = 1, Kd = 1, v = 2, Kx = 1` with `L0 = 2/21` (root `3/4`) and
`L0' = 190/21` (root `1/20`). -/

lemma ce_noSolution1 : ¬ noSolution 1 1 2 1 (2 / 21) := by
  norm_num [noSolution, diffFun]

lemma ce_noSolution2 : ¬ noSolution 1 1 2 1 (190 / 21) := by
  norm_num [noSolution, diffFun]

lemma ce_isReq1 : isReq 1 1 2 1 (2 / 21) (3 / 4) := by
  refine ⟨by norm_num, by norm_num, ?_⟩
  norm_num [diffFun]

lemma ce_isReq2 : isReq 1 1 2 1 (190 / 21) (1 / 20) := by
  refine ⟨by norm_num, by norm_num, ?_⟩
  norm_num [diffFun]

lemma ce_Rmulti1 : Rmulti 1 2 1 (2 / 21) (3 / 4) = 3 / 28 := by
  unfold Rmulti vieq
  rw [show ((2 : ℤ)).toNat = 2 from rfl]
  norm_num [Finset.sum_range_succ]

lemma ce_Rmulti2 : Rmulti 1 2 1 (190 / 21) (1 / 20) = 19 / 420 := by
  unfold Rmulti vieq
  rw [show ((2 : ℤ)).toNat = 2 from rfl]
  norm_num [Finset.sum_range_succ]

/-- C4 counterexample: at `Rtot = 1, Kd = 1, v = 2, Kx = 1`, raising the
ligand concentration from `L0 = 2/21` to `L0' = 190/21` moves the root
from `3/4` to `1/20` and strictly **decreases** `Rmulti`
(from `3/28` to `19/420`), refuting monotonicity of the third output. -/
theorem C4_counterexample :
    ¬ noSolution 1 1 2 1 (2 / 21) ∧ ¬ noSolution 1 1 2 1 (190 / 21) ∧
      isReq 1 1 2 1 (2 / 21) (3 / 4) ∧ isReq 1 1 2 1 (190 / 21) (1 / 20) ∧
        (2 / 21 : ℝ) ≤ 190 / 21 ∧
          Rmulti 1 2 1 (190 / 21) (1 / 20) < Rmulti 1 2 1 (2 / 21) (3 / 4) := by
  refine ⟨ce_noSolution1, ce_noSolution2, ce_isReq1, ce_isReq2, by norm_num, ?_⟩
  rw [ce_Rmulti1, ce_Rmulti2]
  norm_num

/-- In the valid domain the product `f(0) * f(Rtot)` is never positive:
`f(0) = Rtot > 0` while `f(Rtot) ≤ 0`. -/
lemma valid_no_failure (Rtot Kd : ℝ) (v : ℤ) (Kx L0 : ℝ)
    (hRtot : 0 < Rtot) (hKd : 0 < Kd) (hv : 1 ≤ v) (hKx : 0 ≤ Kx) (hL0 : 0 ≤ L0) :
    ¬ noSolution Rtot Kd v Kx L0 := by
  unfold noSolution
  have hf0 : diffFun Rtot Kd v Kx L0 0 = Rtot := by
    unfold diffFun
    ring
  have hbase : (0 : ℝ) ≤ 1 + Kx * Rtot := by
    have := mul_nonneg hKx hRtot.le
    linarith
  have hP : (0 : ℝ) ≤ (1 + Kx * Rtot) ^ (v - 1) := zpow_nonneg hbase _
  have hvr : (1 : ℝ) ≤ (v : ℝ) := by exact_mod_cast hv
  have hc : 0 ≤ (v : ℝ) * L0 * (1 / Kd) :=
    mul_nonneg (mul_nonneg (by linarith) hL0) (by positivity)
  have hcP : 0 ≤ (v : ℝ) * L0 * (1 / Kd) * (1 + Kx * Rtot) ^ (v - 1) :=
    mul_nonneg hc hP
  have hfR : diffFun Rtot Kd v Kx L0 Rtot ≤ 0 := by
    unfold diffFun
    nlinarith [mul_nonneg hRtot.le hcP]
  rw [hf0]
  intro hgt
  nlinarith

/-- C8 (amended): no input in the valid domain
(`Rtot > 0, Kd > 0, v ≥ 1, Kx ≥ 0, L0 ≥ 0`) makes `f(0)` and `f(Rtot)`
share a strictly positive product, so on valid inputs `StoneMod` never
raises the no-solution error; the error requires an input outside the
valid domain. -/
theorem C8_valid_never_fails (Rtot Kd : ℝ) (v : ℤ) (Kx L0 : ℝ)
    (hRtot : 0 < Rtot) (hKd : 0 < Kd) (hv : 1 ≤ v) (hKx : 0 ≤ Kx) (hL0 : 0 ≤ L0) :
    ¬ noSolution Rtot Kd v Kx L0 :=
  valid_no_failure Rtot Kd v Kx L0 hRtot hKd hv hKx hL0

/-- C8 counterexample: the claimed valid input triggering the sign-check
failure does not exist. -/
theorem C8_counterexample :
    ¬ ∃ (Rtot Kd : ℝ) (v : ℤ) (Kx L0 : ℝ),
        (0 < Rtot ∧ 0 < Kd ∧ 1 ≤ v ∧ 0 ≤ Kx ∧ 0 ≤ L0) ∧
          noSolution Rtot Kd v Kx L0 := by
  rintro ⟨Rtot, Kd, v, Kx, L0, ⟨hRtot, hKd, hv, hKx, hL0⟩, hns⟩
  exact valid_no_failure Rtot Kd v Kx L0 hRtot hKd hv hKx hL0 hns

/-- With zero valency the coerced `v` kills the binding term. -/
lemma diffFun_zero_valency (Rtot Kd Kx L0 x : ℝ) :
    diffFun Rtot Kd 0 Kx L0 x = Rtot - x := by
  unfold diffFun
  norm_num

/-- With zero valency all three sums are empty. -/
lemma StoneModOut_zero_valency (Kd Kx L0 Req : ℝ) :
    StoneModOut Kd 0 Kx L0 Req = (0, 0, 0) := by
  unfold StoneModOut Lbound Rbnd Rmulti
  rw [show ((0 : ℤ)).toNat = 0 from rfl]
  simp

/-- C9 (amended): `StoneMod` performs no valency validation: a zero
valency is not rejected with any error; the sign check passes
(`f(0) * f(Rtot) = Rtot * 0 = 0`), root-finding is reached (the root is
`Req = Rtot`), and the call returns `(0, 0, 0)`. -/
theorem C9_zero_valency_not_rejected (Rtot Kd Kx L0 : ℝ)
    (hRtot : 0 < Rtot) (hKd : 0 < Kd) (hKx : 0 ≤ Kx) (hL0 : 0 ≤ L0) :
    StoneMod Rtot Kd 0 Kx L0 (.ok (0, 0, 0)) ∧
      ¬ StoneMod Rtot Kd 0 Kx L0 (.error ()) := by
  have hns : ¬ noSolution Rtot Kd 0 Kx L0 := by
    unfold noSolution
    rw [diffFun_zero_valency, diffFun_zero_valency]
    simp
  exact ⟨⟨hns, Rtot, ⟨hRtot.le, le_refl _, by rw [diffFun_zero_valency]; ring⟩,
    (StoneModOut_zero_valency Kd Kx L0 Rtot).symm⟩, hns⟩

/-- C9 counterexample: at `(Rtot, Kd, v, Kx, L0) = (1, 1, 0, 0, 1)` the
non-positive valency `v = 0` is not rejected: the call raises nothing and
returns `(0, 0, 0)` (there is no `InvalidParameterError` in the code at
all — its only error is the no-solution `RuntimeError`). -/
theorem C9_counterexample :
    StoneMod 1 1 0 0 1 (.ok (0, 0, 0)) ∧ ¬ StoneMod 1 1 0 0 1 (.error ()) := by
  have hns : ¬ noSolution 1 1 0 0 1 := by
    unfold noSolution
    rw [diffFun_zero_valency, diffFun_zero_valency]
    simp
  exact ⟨⟨hns, 1, ⟨by norm_num, le_refl _, by rw [diffFun_zero_valency]; ring⟩,
    (StoneModOut_zero_valency 1 0 1 1).symm⟩, hns⟩

/-! ### Concrete sample run used by the witnesses:
`Rtot = 1, Kd = 1, v = 1, Kx = 0, L0 = 1`, root `Req = 1/2`. -/

lemma sample_noSolution : ¬ noSolution 1 1 1 0 1 := by
  norm_num [noSolution, diffFun]

lemma sample_isReq : isReq 1 1 1 0 1 (1 / 2) :=
  ⟨by norm_num, by norm_num, by norm_num [diffFun]⟩

lemma sample_ok : StoneMod 1 1 1 0 1 (.ok (StoneModOut 1 1 0 1 (1 / 2))) :=
  ⟨sample_noSolution, 1 / 2, sample_isReq, rfl⟩

/-! ### Witnesses -/

/-- Witness for C1 at the sample run. -/
theorem C1_witness :
    (1 ≤ (1 : ℤ)) ∧ StoneMod 1 1 1 0 1 (.ok (StoneModOut 1 1 0 1 (1 / 2))) ∧
      ∃ Req, isReq 1 1 1 0 1 Req ∧
        StoneModOut 1 1 0 1 (1 / 2)
          = (LboundSpec 1 ((1 : ℤ)).toNat 0 1 Req,
             RbndSpec 1 ((1 : ℤ)).toNat 0 1 Req,
             RmultiSpec 1 ((1 : ℤ)).toNat 0 1 Req) :=
  ⟨by norm_num, sample_ok,
    C1_output_is_spec_series 1 1 1 0 1 _ (by norm_num) sample_ok⟩

/-- Witness for C2 at the sample run. -/
theorem C2_witness :
    StoneMod 1 1 1 0 1 (.ok (StoneModOut 1 1 0 1 (1 / 2))) ∧
      (((∃ u, (Except.ok (StoneModOut 1 1 0 1 (1 / 2)) : Except Unit (ℝ × ℝ × ℝ))
            = .error u) ↔ noSolution 1 1 1 0 1) ∧
        ∀ t, (Except.ok (StoneModOut 1 1 0 1 (1 / 2)) : Except Unit (ℝ × ℝ × ℝ))
            = .ok t → ∃ Req, 0 ≤ Req ∧ Req ≤ 1 ∧
              diffFun 1 1 1 0 1 Req = 0 ∧ t = StoneModOut 1 1 0 1 Req) :=
  ⟨sample_ok, C2_fail_iff_sign_check 1 1 1 0 1 _ sample_ok⟩

/-- Witness for C3 at the sample run. -/
theorem C3_witness :
    ((0 : ℝ) < 1 ∧ (0 : ℝ) < 1 ∧ (1 ≤ (1 : ℤ)) ∧ (0 : ℝ) ≤ 0 ∧ (0 : ℝ) ≤ 1 ∧
        ¬ noSolution 1 1 1 0 1 ∧ isReq 1 1 1 0 1 (1 / 2)) ∧
      ((0 ≤ (1 / 2 : ℝ) ∧ (1 / 2 : ℝ) ≤ 1) ∧
        Rmulti 1 1 0 1 (1 / 2) ≤ Rbnd 1 1 0 1 (1 / 2) ∧
          Rbnd 1 1 0 1 (1 / 2) ≤ 1) :=
  ⟨⟨by norm_num, by norm_num, by norm_num, by norm_num, by norm_num,
      sample_noSolution, sample_isReq⟩,
    C3_invariants 1 1 1 0 1 (1 / 2) (by norm_num) (by norm_num) (by norm_num)
      (by norm_num) (by norm_num) sample_noSolution sample_isReq⟩

/-- Witness for C4 at the concrete pair of runs of the counterexample
family (where `Lbound` and `Rbnd` do increase). -/
theorem C4_witness :
    ((0 : ℝ) < 1 ∧ (0 : ℝ) < 1 ∧ (1 ≤ (2 : ℤ)) ∧ (0 : ℝ) ≤ 1 ∧
        (0 : ℝ) ≤ 2 / 21 ∧ (2 / 21 : ℝ) ≤ 190 / 21 ∧
          isReq 1 1 2 1 (2 / 21) (3 / 4) ∧ isReq 1 1 2 1 (190 / 21) (1 / 20)) ∧
      (Lbound 1 2 1 (2 / 21) (3 / 4) ≤ Lbound 1 2 1 (190 / 21) (1 / 20) ∧
        Rbnd 1 2 1 (2 / 21) (3 / 4) ≤ Rbnd 1 2 1 (190 / 21) (1 / 20)) :=
  ⟨⟨by norm_num, by norm_num, by norm_num, by norm_num, by norm_num,
      by norm_num, ce_isReq1, ce_isReq2⟩,
    C4_Lbound_Rbnd_monotone 1 1 2 1 (2 / 21) (190 / 21) (3 / 4) (1 / 20)
      (by norm_num) (by norm_num) (by norm_num) (by norm_num) (by norm_num)
      (by norm_num) ce_isReq1 ce_isReq2⟩

/-- Witness for C5 at the sample run: the root `1/2` equals
`Rtot Kd / (Kd + L0) = 1*1/(1+1)`. -/
theorem C5_witness :
    ((0 : ℝ) < 1 ∧ (0 : ℝ) ≤ 1 ∧ isReq 1 1 1 0 1 (1 / 2)) ∧
      (1 / 2 : ℝ) = 1 * 1 / (1 + 1) :=
  ⟨⟨by norm_num, by norm_num, sample_isReq⟩,
    C5_closed_form_valency_one 1 1 0 1 (1 / 2) (by norm_num) (by norm_num)
      sample_isReq⟩

/-- Witness for C7 at `Rtot = 1, Kd = 1, v = 1, Kx = 0`. -/
theorem C7_witness :
    ((0 : ℝ) < 1) ∧ (StoneMod 1 1 1 0 0 (.ok (0, 0, 0)) ∧
      ∀ r, StoneMod 1 1 1 0 0 r → r = .ok (0, 0, 0)) :=
  ⟨by norm_num, C7_zero_ligand 1 1 1 0 (by norm_num)⟩

/-- Witness for C8 at the sample run's parameters. -/
theorem C8_witness :
    ((0 : ℝ) < 1 ∧ (0 : ℝ) < 1 ∧ (1 ≤ (1 : ℤ)) ∧ (0 : ℝ) ≤ 0 ∧ (0 : ℝ) ≤ 1) ∧
      ¬ noSolution 1 1 1 0 1 :=
  ⟨⟨by norm_num, by norm_num, by norm_num, by norm_num, by norm_num⟩,
    C8_valid_never_fails 1 1 1 0 1 (by norm_num) (by norm_num) (by norm_num)
      (by norm_num) (by norm_num)⟩

/-- Witness for C9 at `Rtot = 2, Kd = 1, Kx = 1, L0 = 3` (valency `0`). -/
theorem C9_witness :
    ((0 : ℝ) < 2 ∧ (0 : ℝ) < 1 ∧ (0 : ℝ) ≤ 1 ∧ (0 : ℝ) ≤ 3) ∧
      (StoneMod 2 1 0 1 3 (.ok (0, 0, 0)) ∧ ¬ StoneMod 2 1 0 1 3 (.error ())) :=
  ⟨⟨by norm_num, by norm_num, by norm_num, by norm_num⟩,
    C9_zero_valency_not_rejected 2 1 1 3 (by norm_num) (by norm_num)
      (by norm_num) (by norm_num)⟩

end StoneModel
